import Mathlib

/-!
# Verification of the arm64 code generator (`src/codegen.py`)

This file gives a shallow embedding of the single-file Python code generator:
the register namespace (`_RegMeta.__getattr__`, `Reg.X`, `Reg.W`), the
instruction catalog (`Inst`), instruction rendering (`Instruction.emit`),
the program builder (`Codegen`: `alloc_size`, `allocate_stack`,
`deallocate_stack`, `syscall_exit`, `syscall_write`, `generate`) and the
`TemplateInstruction.print_sum` template, together with theorems settling the
frozen claims about them.

Modelling conventions:
* Python `int` is `Int`; Python `str` is `String` (reasoned about through its
  character list).  Only ASCII text occurs in the source, so character-level
  helpers (`str.lower`, `int(...)` parsing, whitespace stripping) are modelled
  for ASCII.
* Python functions that can raise are embedded with explicit result types; an
  exception is a constructor value, never an unprovable side condition.
* All definitions are executable, so every theorem can be checked on concrete
  inputs by kernel evaluation.
-/

/-! ## Decimal rendering of Python integers (`str(n)`)

`natCharsAux` is fuel-indexed structural recursion (fuel strictly dominates
the argument) so that it evaluates by kernel reduction. -/

/-- The character for a decimal digit value `d < 10` (ASCII `'0' + d`). -/
def digitChar (d : Nat) : Char := Char.ofNat (48 + d)

/-- Fuel-indexed decimal rendering of a natural number, most significant
digit first.  Faithful to Python `str` on non-negative ints. -/
def natCharsAux : Nat → Nat → List Char
  | 0, _ => []
  | fuel + 1, n =>
    if n < 10 then [digitChar n]
    else natCharsAux fuel (n / 10) ++ [digitChar (n % 10)]

/-- Decimal rendering of a natural number (`str(n)` for `n ≥ 0`). -/
def natChars (n : Nat) : List Char := natCharsAux (n + 1) n

/-- Decimal rendering of a Python integer: `str(i)`, with a leading minus
sign for negative values. -/
def intChars (i : Int) : List Char :=
  if i < 0 then Char.ofNat 45 :: natChars (-i).toNat else natChars i.toNat

/-- `str(i)` as a `String`. -/
def intStr (i : Int) : String := String.mk (intChars i)


/-! ## Python `int(s)` parsing

`int()` strips whitespace, accepts one optional sign, then a nonempty group
of decimal digits where single underscores may separate digits.  Only ASCII
digits and ASCII whitespace are modelled (the only forms the claims and the
source can produce). -/

/-- ASCII whitespace stripped by Python `int()` / `str.strip()`. -/
def pyIsSpace (c : Char) : Bool :=
  c = Char.ofNat 32 ∨ c = Char.ofNat 9 ∨ c = Char.ofNat 10 ∨
  c = Char.ofNat 13 ∨ c = Char.ofNat 11 ∨ c = Char.ofNat 12

/-- Strip leading and trailing whitespace from a character list. -/
def pyStripChars (l : List Char) : List Char :=
  (((l.dropWhile pyIsSpace).reverse.dropWhile pyIsSpace)).reverse

/-- After the first digit: digits, possibly separated by single
underscores (Python's numeric-literal underscore rule: an underscore must
sit between two digits). -/
def pyDigitsRest : List Char → Bool
  | [] => true
  | [c] => c.isDigit
  | c :: d :: rest =>
    if c = Char.ofNat 95 then d.isDigit && pyDigitsRest rest
    else c.isDigit && pyDigitsRest (d :: rest)

/-- A valid (unsigned, unspaced) digit group for Python `int()`. -/
def pyDigits : List Char → Bool
  | [] => false
  | c :: rest => c.isDigit && pyDigitsRest rest

/-- Numeric value of a digit group, underscores removed. -/
def digitsValue (l : List Char) : Nat :=
  (l.filter (fun c => !(c = Char.ofNat 95 : Bool))).foldl
    (fun a c => 10 * a + (c.toNat - 48)) 0

/-- Sign-and-digits phase of Python `int()`, applied after stripping. -/
def pyIntCore : List Char → Option Int
  | [] => none
  | c :: rest =>
    if c = Char.ofNat 43 then
      (if pyDigits rest then some (Int.ofNat (digitsValue rest)) else none)
    else if c = Char.ofNat 45 then
      (if pyDigits rest then some (-(Int.ofNat (digitsValue rest))) else none)
    else
      (if pyDigits (c :: rest) then some (Int.ofNat (digitsValue (c :: rest))) else none)

/-- Python `int(s)` on a character list: `some v` on success, `none` when a
`ValueError` is raised. -/
def pythonIntL (l : List Char) : Option Int := pyIntCore (pyStripChars l)

/-- Python `int(s)`. -/
def pythonInt (s : String) : Option Int := pythonIntL s.data


/-! ## Register namespace (`_RegMeta.__getattr__` and class `Reg`)

`_RegMeta.__getattr__` resolves a symbolic attribute name: the `_special`
dictionary first, then names beginning with `X` or `W` whose remainder is
fed to Python `int()`; an index in `[0, 30)` yields the canonical lowercase
mnemonic, anything else raises `AttributeError` (the spec's
`UnknownRegister`).  `none` models the raised `AttributeError`. -/

/-- The `_RegMeta._special` dictionary lookup. -/
def regSpecial (l : List Char) : Option (List Char) :=
  if l = ['S', 'P'] then some ['s', 'p']
  else if l = ['L', 'R'] then some ['l', 'r']
  else if l = ['F', 'P'] then some ['f', 'p']
  else if l = ['X', 'Z', 'R'] then some ['x', 'z', 'r']
  else if l = ['W', 'Z', 'R'] then some ['w', 'z', 'r']
  else none

/-- One `X`/`W` branch of `__getattr__`: `int(name[1:])` in a `try`, the
range check, `f"x{idx}"` on success, fall-through on failure. -/
def xwLookup (lc : Char) (rest : List Char) : Option (List Char) :=
  match pythonIntL rest with
  | some idx => if 0 ≤ idx ∧ idx < 30 then some (lc :: intChars idx) else none
  | none => none

/-- `_RegMeta.__getattr__` on the name's character list. -/
def regGetattrL (name : List Char) : Option (List Char) :=
  if (regSpecial name).isSome then regSpecial name
  else
    match name with
    | [] => none
    | c :: rest =>
      if c = 'X' then xwLookup 'x' rest
      else if c = 'W' then xwLookup 'w' rest
      else none

/-- `_RegMeta.__getattr__`: resolve a register name, `none` = `AttributeError`. -/
def regGetattr (name : String) : Option String :=
  (regGetattrL name.data).map (fun l => String.mk l)

namespace Reg

/-- `Reg.X(i)`: `f"x{i}" if 0 <= i < 30 else None`. -/
def X (i : Int) : Option String :=
  if 0 ≤ i ∧ i < 30 then some (String.mk ('x' :: intChars i)) else none

/-- `Reg.W(i)`: `f"w{i}" if 0 <= i < 30 else None`. -/
def W (i : Int) : Option String :=
  if 0 ≤ i ∧ i < 30 then some (String.mk ('w' :: intChars i)) else none

/-- `Reg.SP` as resolved by `_RegMeta.__getattr__`. -/
def SP : String := "sp"

def X0 : String := "x0"

def X1 : String := "x1"

def X2 : String := "x2"

def X8 : String := "x8"

def X16 : String := "x16"

def W1 : String := "w1"

end Reg


/-! ## Instruction catalog and rendering (`Inst`, `Instruction.emit`)

Operands in the source are Python strings (register mnemonics, shift kinds),
ints (immediates, offsets) or lists (addressing operands).  The source only
ever nests strings and ints inside addressing lists, so addressing-list
elements get their own flat type.  Exception messages are not modelled; the
exception kind is:
* `assertionError` — the `assert ..., "Instruksi ini tidak sah !"` in the
  shifted-move arm (the spec's `IllegalShift`);
* `valueError` — every explicit `raise ValueError` and every failing
  tuple-unpacking of `self.args` (the spec's `MalformedOperands`);
* `indexError` — `self.args[0]` on an empty list;
* `typeError` — `"\n".join` over a list containing `None`. -/

inductive Inst where
  | MOV | LDR | STR | STRB | STRH | ADR | ADRP | MOVZ | MOVK | MOVN
  | ADD | SUB | MUL | UDIV | NEG | INC
  | AND | ORR | EOR | MVN | LSL | LSR
  | CMP | TST | CCMP | NOP | SVC | RET
deriving DecidableEq

/-- `self.op.name` of the Python `Enum` member. -/
def Inst.pyName : Inst → String
  | .MOV => "MOV" | .LDR => "LDR" | .STR => "STR" | .STRB => "STRB"
  | .STRH => "STRH" | .ADR => "ADR" | .ADRP => "ADRP" | .MOVZ => "MOVZ"
  | .MOVK => "MOVK" | .MOVN => "MOVN" | .ADD => "ADD" | .SUB => "SUB"
  | .MUL => "MUL" | .UDIV => "UDIV" | .NEG => "NEG" | .INC => "INC"
  | .AND => "AND" | .ORR => "ORR" | .EOR => "EOR" | .MVN => "MVN"
  | .LSL => "LSL" | .LSR => "LSR" | .CMP => "CMP" | .TST => "TST"
  | .CCMP => "CCMP" | .NOP => "NOP" | .SVC => "SVC" | .RET => "RET"

/-- ASCII `str.lower()` on one character. -/
def charLower (c : Char) : Char :=
  if 65 ≤ c.toNat ∧ c.toNat ≤ 90 then Char.ofNat (c.toNat + 32) else c

/-- ASCII `str.lower()`. -/
def pyLower (s : String) : String := String.mk (s.data.map charLower)

/-- An element of an addressing list: a register mnemonic or an integer. -/
inductive PrimArg where
  | str (s : String)
  | int (i : Int)
deriving DecidableEq

/-- An operand: register mnemonic / shift-kind string, integer immediate, or
an addressing list. -/
inductive Arg where
  | str (s : String)
  | int (i : Int)
  | list (elems : List PrimArg)
deriving DecidableEq

/-- The ASCII single-quote character, used by Python `repr` of a string. -/
def sqChar : String := String.singleton (Char.ofNat 39)

/-- Python `str(x)` of an addressing-list element, as an f-string inserts it. -/
def PrimArg.pyStr : PrimArg → String
  | .str s => s
  | .int i => intStr i

/-- Python `repr(x)` of an addressing-list element (string escaping is not
modelled; the source only ever puts plain register mnemonics here). -/
def PrimArg.pyRepr : PrimArg → String
  | .str s => sqChar ++ s ++ sqChar
  | .int i => intStr i

/-- Python `str(x)` of an operand, as an f-string inserts it (lists render
with `repr` of their elements). -/
def Arg.pyStr : Arg → String
  | .str s => s
  | .int i => intStr i
  | .list l => "[" ++ String.intercalate ", " (l.map PrimArg.pyRepr) ++ "]"

/-- Python exception kinds raised by `Instruction.emit` / `Codegen.generate`. -/
inductive PyExc where
  | assertionError
  | valueError
  | indexError
  | typeError
deriving DecidableEq

/-- Result of `Instruction.emit()`: a rendered line, the implicit `None` when
no branch of the if-chain matches the opcode, or a raised exception. -/
inductive EmitResult where
  | line (s : String)
  | noneVal
  | exc (e : PyExc)
deriving DecidableEq

/-- An operation bound to its operand list. -/
structure Instruction where
  op : Inst
  args : List Arg
deriving DecidableEq

/-- The `Inst.MOV` arm of `emit`. -/
def emitMov : List Arg → EmitResult
  | [dst, .int src] => .line ("\t mov " ++ dst.pyStr ++ ", #" ++ intStr src)
  | [dst, src] => .line ("\t mov " ++ dst.pyStr ++ ", " ++ src.pyStr)
  | _ => .exc .valueError

/-- The `Inst.ADD` arm of `emit`. -/
def emitAdd : List Arg → EmitResult
  | [dst, src1, src2] =>
    .line ("\t add " ++ dst.pyStr ++ ", " ++ src1.pyStr ++ ", " ++ src2.pyStr)
  | _ => .exc .valueError

/-- The `Inst.MOVK` / `Inst.MOVZ` arm of `emit`: a 2-operand immediate form,
or a 4-operand shifted form whose third operand must be the string `LSL` or
`LSR`; the `assert` demands `MOVZ`, `LSL` and a shift in `{0, 16, 32, 48}`. -/
def emitMovzk (op : Inst) : List Arg → EmitResult
  | [dst, imm] =>
    .line ("\t " ++ pyLower op.pyName ++ " " ++ dst.pyStr ++ ", #" ++ imm.pyStr)
  | [dst, imm, .str st, sh] =>
    if st = "LSL" ∨ st = "LSR" then
      if op = .MOVZ ∧ st = "LSL" ∧
          (sh = .int 0 ∨ sh = .int 16 ∨ sh = .int 32 ∨ sh = .int 48) then
        .line ("\t " ++ pyLower op.pyName ++ " " ++ dst.pyStr ++ ", #" ++
          imm.pyStr ++ ", " ++ pyLower st ++ " #" ++ sh.pyStr)
      else .exc .assertionError
    else .exc .valueError
  | [_, _, _, _] => .exc .valueError
  | _ => .exc .valueError

/-- The `Inst.SUB` arm of `emit`: destination doubles as first source. -/
def emitSub : List Arg → EmitResult
  | [dst, src] =>
    .line ("\t sub " ++ dst.pyStr ++ ", " ++ dst.pyStr ++ ", #" ++ src.pyStr)
  | _ => .exc .valueError

/-- The `Inst.SVC` arm of `emit`: takes `self.args[0]`, ignoring the rest. -/
def emitSvc : List Arg → EmitResult
  | a :: _ => .line ("\t svc #" ++ a.pyStr)
  | [] => .exc .indexError

/-- The `Inst.STR` / `Inst.STRB` / `Inst.STRH` arm of `emit`: the second
operand must be a list of one (base) or two (base, offset) elements;
a list of any other length fails the `base, offset = addr` unpacking, and a
non-list second operand hits the `raise ValueError` else-branch. -/
def emitStore (op : Inst) : List Arg → EmitResult
  | [src, .list addr] =>
    match addr with
    | [base] =>
      .line ("\t " ++ pyLower op.pyName ++ " " ++ src.pyStr ++ ", [" ++
        base.pyStr ++ "]")
    | [base, offset] =>
      .line ("\t " ++ pyLower op.pyName ++ " " ++ src.pyStr ++ ", [" ++
        base.pyStr ++ ", #" ++ offset.pyStr ++ "]")
    | _ => .exc .valueError
  | [_, _] => .exc .valueError
  | _ => .exc .valueError

/-- `Instruction.emit()`: the if-chain over the opcode.  Opcodes with no
branch fall off the end of the Python function, returning `None`. -/
def Instruction.emit (i : Instruction) : EmitResult :=
  match i.op with
  | .MOV => emitMov i.args
  | .ADD => emitAdd i.args
  | .RET => .line "\t ret"
  | .NOP => .line "\t nop"
  | .MOVK => emitMovzk .MOVK i.args
  | .MOVZ => emitMovzk .MOVZ i.args
  | .SUB => emitSub i.args
  | .SVC => emitSvc i.args
  | .STR => emitStore .STR i.args
  | .STRB => emitStore .STRB i.args
  | .STRH => emitStore .STRH i.args
  | _ => .noneVal

/-! ## Program builder (`class Codegen`) -/

/-- Python bitwise NOT on `int`: `~x = -x - 1`. -/
def pyNot (x : Int) : Int := -x - 1

/-- Python bitwise AND on `int`, two's complement over unbounded integers.
`Int.negSucc n` has bit pattern `NOT n`, and the bitwise difference
`m AND NOT n` equals `m XOR (m AND n)`. -/
def pyLand : Int → Int → Int
  | .ofNat m, .ofNat n => .ofNat (m &&& n)
  | .ofNat m, .negSucc n => .ofNat (m ^^^ (m &&& n))
  | .negSucc m, .ofNat n => .ofNat (n ^^^ (n &&& m))
  | .negSucc m, .negSucc n => .negSucc (m ||| n)

/-- A `Codegen` object: its mutable instruction list. -/
structure Codegen where
  instructions : List Instruction
deriving DecidableEq

namespace Codegen

/-- `Codegen.alloc_size`: `(n_size + 15) & ~15`. -/
def alloc_size (n_size : Int) : Int := pyLand (n_size + 15) (pyNot 15)

/-- `Codegen.emit`: append one instruction. -/
def emit (cg : Codegen) (inst : Instruction) : Codegen :=
  ⟨cg.instructions ++ [inst]⟩

/-- `Codegen.allocate_stack`: the source computes `alloc_size(n_size)` into a
local that it never reads again, then appends `SUB [Reg.SP, 16]` — a fixed
16-byte stack-pointer decrement regardless of the requested size. -/
def allocate_stack (cg : Codegen) (n_size : Int) : Codegen :=
  let _rounded := alloc_size n_size
  ⟨cg.instructions ++ [⟨.SUB, [.str Reg.SP, .int 16]⟩]⟩

/-- `Codegen.deallocate_stack`: appends `ADD [Reg.SP, Reg.SP, alloc_size n]`. -/
def deallocate_stack (cg : Codegen) (n_size : Int) : Codegen :=
  ⟨cg.instructions ++ [⟨.ADD, [.str Reg.SP, .str Reg.SP, .int (alloc_size n_size)]⟩]⟩

/-- `Codegen.syscall_exit`: the fixed process-exit sequence. -/
def syscall_exit (cg : Codegen) : Codegen :=
  ⟨cg.instructions ++
    [⟨.MOV, [.str Reg.X16, .int 1]⟩,
     ⟨.MOV, [.str Reg.X0, .int 0]⟩,
     ⟨.MOV, [.str Reg.X8, .int 0x2000000]⟩,
     ⟨.ADD, [.str Reg.X16, .str Reg.X16, .str Reg.X8]⟩,
     ⟨.SVC, [.int 0]⟩]⟩

/-- `Codegen.syscall_write`: the fixed write sequence for `n_literal` bytes. -/
def syscall_write (cg : Codegen) (n_literal : Int) : Codegen :=
  ⟨cg.instructions ++
    [⟨.MOV, [.str Reg.X0, .int 1]⟩,
     ⟨.MOV, [.str Reg.X1, .str Reg.SP]⟩,
     ⟨.MOV, [.str Reg.X2, .int n_literal]⟩,
     ⟨.MOV, [.str Reg.X16, .int 4]⟩,
     ⟨.MOV, [.str Reg.X8, .int 0x2000000]⟩,
     ⟨.ADD, [.str Reg.X16, .str Reg.X16, .str Reg.X8]⟩,
     ⟨.SVC, [.int 0]⟩]⟩

/-- The loop body of `Codegen.generate`: collect `instr.emit()` results in
order (`None` results included), propagating the first raised exception. -/
def collectLines : List Instruction → Except PyExc (List (Option String))
  | [] => .ok []
  | i :: rest =>
    match i.emit with
    | .line s => (collectLines rest).map (fun ls => some s :: ls)
    | .noneVal => (collectLines rest).map (fun ls => none :: ls)
    | .exc e => .error e

/-- The fixed header of every listing. -/
def headerLines : List String :=
  [".section __TEXT,__text", ".global _main", "", "_main:"]

/-- Python `"\n".join`. -/
def pyJoin (sep : String) : List String → String
  | [] => ""
  | [s] => s
  | s :: rest => s ++ sep ++ pyJoin sep rest

/-- `Codegen.generate`: header lines plus one `emit()` result per
instruction, joined with newlines.  `join` raises `TypeError` if any
collected entry is `None`. -/
def generate (cg : Codegen) : Except PyExc String :=
  match collectLines cg.instructions with
  | .error e => .error e
  | .ok ls =>
    let all := headerLines.map some ++ ls
    if all.all Option.isSome then .ok (pyJoin "\n" (all.filterMap id))
    else .error .typeError

end Codegen

/-! ## Sequence templates (`class TemplateInstruction`) -/

namespace TemplateInstruction

/-- `Instruction(Inst.MOVZ, [Reg.X1, ord(val), "LSL", 0])` for a character
`val` of `str(a + b)`. -/
def movzInstr (val : Char) : Instruction :=
  ⟨.MOVZ, [.str Reg.X1, .int (val.toNat : Int), .str "LSL", .int 0]⟩

/-- `Instruction(Inst.STRB, [Reg.W1, [Reg.SP, idx]])` for the stack slot at
offset `idx`. -/
def strbInstr (idx : Nat) : Instruction :=
  ⟨.STRB, [.str Reg.W1, .list [.str Reg.SP, .int (idx : Int)]]⟩

/-- The two instructions `print_sum` appends for the character `val` at
index `idx` of `str(a + b)`. -/
def digitPair (idx : Nat) (val : Char) : List Instruction :=
  [movzInstr val, strbInstr idx]

/-- `TemplateInstruction.print_sum(a, b)`: computes `c = str(a + b)` in the
host, allocates, emits a `MOVZ`/`STRB` pair per character of `c` (in
`enumerate` order), writes `len(c)` bytes, deallocates and exits. -/
def print_sum (a b : Int) : Codegen :=
  let cg : Codegen := ⟨[]⟩
  let c : List Char := intChars (a + b)
  let cg := cg.allocate_stack (c.length : Int)
  let cg := c.enum.foldl (fun acc p => (acc.emit (movzInstr p.2)).emit (strbInstr p.1)) cg
  let cg := cg.syscall_write (c.length : Int)
  let cg := cg.deallocate_stack (c.length : Int)
  cg.syscall_exit

end TemplateInstruction

/-! ## Observation helpers used by the theorems -/

/-- Is this one of the two instructions of a `print_sum` digit pair? -/
def isDigitPairOp (i : Instruction) : Bool :=
  match i.op with
  | .MOVZ => true
  | .STRB => true
  | _ => false

/-- The line an instruction renders (junk default when it does not render). -/
def emittedLine (i : Instruction) : String :=
  match i.emit with
  | .line s => s
  | _ => ""

/-- The catalog members with no branch in `emit`'s if-chain. -/
def armlessOps : List Inst :=
  [.LDR, .ADR, .ADRP, .MOVN, .MUL, .UDIV, .NEG, .INC,
   .AND, .ORR, .EOR, .MVN, .LSL, .LSR, .CMP, .TST, .CCMP]

/-! ## Basic lemmas: decimal rendering, `int()` parsing, register constants -/

theorem natCharsAux_fuel_irrel :
    ∀ fuel fuel' n : Nat, n < fuel → n < fuel' →
      natCharsAux fuel n = natCharsAux fuel' n := by
  intro fuel
  induction fuel with
  | zero => intro fuel' n h; omega
  | succ f ih =>
    intro fuel' n h h'
    match fuel', h' with
    | f' + 1, _ =>
      show natCharsAux (f + 1) n = natCharsAux (f' + 1) n
      simp only [natCharsAux]
      by_cases hn : n < 10
      · simp [hn]
      · have hd : n / 10 < n := Nat.div_lt_self (by omega) (by omega)
        rw [if_neg hn, if_neg hn, ih f' (n / 10) (by omega) (by omega)]

/-- The defining equation of `natChars`, free of fuel. -/
theorem natChars_eq (n : Nat) :
    natChars n = if n < 10 then [digitChar n]
                 else natChars (n / 10) ++ [digitChar (n % 10)] := by
  show natCharsAux (n + 1) n = _
  simp only [natCharsAux]
  by_cases hn : n < 10
  · simp [hn]
  · have hd : n / 10 < n := Nat.div_lt_self (by omega) (by omega)
    rw [if_neg hn, if_neg hn,
      natCharsAux_fuel_irrel n (n / 10 + 1) (n / 10) (by omega) (by omega)]
    rfl

theorem digitChar_isDigit {d : Nat} (h : d < 10) : (digitChar d).isDigit = true := by
  interval_cases d <;> decide

theorem digitChar_toNat {d : Nat} (h : d < 10) : (digitChar d).toNat = 48 + d := by
  interval_cases d <;> decide

theorem natChars_ne_nil (n : Nat) : natChars n ≠ [] := by
  rw [natChars_eq]
  by_cases hn : n < 10 <;> simp [hn]

theorem natChars_all_digits (n : Nat) : ∀ c ∈ natChars n, c.isDigit = true := by
  induction n using Nat.strong_induction_on with
  | _ n ih =>
    rw [natChars_eq]
    by_cases hn : n < 10
    · simp only [if_pos hn, List.mem_singleton]
      intro c hc; subst hc; exact digitChar_isDigit hn
    · simp only [if_neg hn, List.mem_append, List.mem_singleton]
      intro c hc
      rcases hc with hc | hc
      · exact ih (n / 10) (Nat.div_lt_self (by omega) (by omega)) c hc
      · subst hc; exact digitChar_isDigit (Nat.mod_lt _ (by omega))

theorem isDigit_not_space {c : Char} (h : c.isDigit = true) : pyIsSpace c = false := by
  simp only [pyIsSpace, decide_eq_false_iff_not]
  rintro (rfl | rfl | rfl | rfl | rfl | rfl) <;> exact absurd h (by decide)

theorem isDigit_ne_underscore {c : Char} (h : c.isDigit = true) : c ≠ Char.ofNat 95 := by
  rintro rfl; exact absurd h (by decide)

theorem dropWhile_of_none (p : Char → Bool) :
    ∀ l : List Char, (∀ c ∈ l, p c = false) → l.dropWhile p = l := by
  intro l h
  cases l with
  | nil => rfl
  | cons c rest =>
    rw [List.dropWhile_cons, h c (List.mem_cons_self c rest)]
    simp

theorem pyStripChars_of_no_space (l : List Char)
    (h : ∀ c ∈ l, pyIsSpace c = false) : pyStripChars l = l := by
  unfold pyStripChars
  rw [dropWhile_of_none _ l h,
    dropWhile_of_none _ l.reverse (by intro c hc; exact h c (List.mem_reverse.mp hc)),
    List.reverse_reverse]

theorem pyDigitsRest_of_digits :
    ∀ l : List Char, (∀ c ∈ l, c.isDigit = true) → pyDigitsRest l = true := by
  intro l
  induction l using pyDigitsRest.induct with
  | case1 => intro _; rfl
  | case2 c => intro h; simpa using h c (by simp)
  | case3 c d ih =>
    intro h
    have : (Char.ofNat 95).isDigit = true := h (Char.ofNat 95) (by simp)
    exact absurd this (by decide)
  | case4 c d rest hc ih =>
    intro h
    have hcd : c.isDigit = true := h c (by simp)
    rw [pyDigitsRest, if_neg hc, hcd, ih (fun e he => h e (List.mem_cons_of_mem c he))]
    rfl

theorem pyDigits_of_digits (l : List Char) (hne : l ≠ [])
    (h : ∀ c ∈ l, c.isDigit = true) : pyDigits l = true := by
  cases l with
  | nil => exact absurd rfl hne
  | cons c rest =>
    rw [pyDigits, h c (List.mem_cons_self c rest),
      pyDigitsRest_of_digits rest (fun d hd => h d (List.mem_cons_of_mem c hd))]
    rfl

theorem filter_underscore_of_digits (l : List Char) (h : ∀ c ∈ l, c.isDigit = true) :
    l.filter (fun c => !(c = Char.ofNat 95 : Bool)) = l := by
  rw [List.filter_eq_self]
  intro c hc
  simp [isDigit_ne_underscore (h c hc)]

theorem digitsValue_natChars (n : Nat) : digitsValue (natChars n) = n := by
  induction n using Nat.strong_induction_on with
  | _ n ih =>
    unfold digitsValue
    rw [filter_underscore_of_digits _ (natChars_all_digits n), natChars_eq]
    by_cases hn : n < 10
    · rw [if_pos hn]
      show 10 * 0 + ((digitChar n).toNat - 48) = n
      rw [digitChar_toNat hn]; omega
    · rw [if_neg hn, List.foldl_append]
      have h1 : (natChars (n / 10)).foldl (fun a c => 10 * a + (c.toNat - 48)) 0 = n / 10 := by
        have := ih (n / 10) (Nat.div_lt_self (by omega) (by omega))
        unfold digitsValue at this
        rwa [filter_underscore_of_digits _ (natChars_all_digits (n / 10))] at this
      rw [h1]
      show 10 * (n / 10) + ((digitChar (n % 10)).toNat - 48) = n
      rw [digitChar_toNat (Nat.mod_lt _ (by omega))]
      omega

theorem pyStripChars_natChars (n : Nat) : pyStripChars (natChars n) = natChars n :=
  pyStripChars_of_no_space _ (fun c hc => isDigit_not_space (natChars_all_digits n c hc))

theorem pythonIntL_natChars (n : Nat) : pythonIntL (natChars n) = some (Int.ofNat n) := by
  show pyIntCore (pyStripChars (natChars n)) = _
  rw [pyStripChars_natChars]
  rcases hl : natChars n with _ | ⟨c, rest⟩
  · exact absurd hl (natChars_ne_nil n)
  · have hc : c.isDigit = true :=
      natChars_all_digits n c (by rw [hl]; exact List.mem_cons_self c rest)
    have h43 : c ≠ Char.ofNat 43 := by rintro rfl; exact absurd hc (by decide)
    have h45 : c ≠ Char.ofNat 45 := by rintro rfl; exact absurd hc (by decide)
    rw [pyIntCore, if_neg h43, if_neg h45, ← hl,
      pyDigits_of_digits _ (natChars_ne_nil n) (natChars_all_digits n),
      if_pos rfl, digitsValue_natChars]

theorem pythonIntL_neg_natChars (m : Nat) :
    pythonIntL (Char.ofNat 45 :: natChars m) = some (-(Int.ofNat m)) := by
  show pyIntCore (pyStripChars (Char.ofNat 45 :: natChars m)) = _
  rw [pyStripChars_of_no_space]
  · rw [pyIntCore, if_neg (by decide), if_pos rfl,
      pyDigits_of_digits _ (natChars_ne_nil m) (natChars_all_digits m),
      if_pos rfl, digitsValue_natChars]
  · intro c hc
    rcases List.mem_cons.mp hc with rfl | hc
    · decide
    · exact isDigit_not_space (natChars_all_digits m c hc)

theorem regGetattr_SP : regGetattr "SP" = some Reg.SP := rfl

theorem regGetattr_X16 : regGetattr "X16" = some Reg.X16 := rfl

theorem regGetattr_W1 : regGetattr "W1" = some Reg.W1 := rfl

/-! ## Arithmetic of `alloc_size` -/

theorem xor_and_fifteen (m : Nat) : m ^^^ (m &&& 15) = 16 * (m / 16) := by
  have h16 : 16 * (m / 16) = (m >>> 4) <<< 4 := by
    rw [Nat.shiftRight_eq_div_pow, Nat.shiftLeft_eq]
    norm_num [Nat.mul_comm]
  rw [h16]
  apply Nat.eq_of_testBit_eq
  intro i
  rw [Nat.testBit_xor, Nat.testBit_and, Nat.testBit_shiftLeft, Nat.testBit_shiftRight]
  by_cases hi : i < 4
  · have h15 : (15 : Nat).testBit i = true := by interval_cases i <;> decide
    have hd : (decide (i ≥ 4)) = false := by simp; omega
    rw [h15, hd]
    cases m.testBit i <;> rfl
  · have h15 : (15 : Nat).testBit i = false := by
      apply Nat.testBit_lt_two_pow
      calc (15 : Nat) < 2 ^ 4 := by norm_num
        _ ≤ 2 ^ i := Nat.pow_le_pow_right (by norm_num) (by omega)
    have hd : (decide (i ≥ 4)) = true := by simp; omega
    have harg : 4 + (i - 4) = i := by omega
    rw [h15, hd, harg]
    cases m.testBit i <;> rfl

/-- On non-negative input, `alloc_size` is `16 * ((n + 15) / 16)`. -/
theorem alloc_size_eq_of_nonneg (n : Int) (h : 0 ≤ n) :
    Codegen.alloc_size n = ((16 * ((n.toNat + 15) / 16) : Nat) : Int) := by
  obtain ⟨k, rfl⟩ := Int.eq_ofNat_of_zero_le h
  have h1 : (Int.ofNat k + 15 : Int) = Int.ofNat (k + 15) := rfl
  have h2 : pyNot 15 = Int.negSucc 15 := rfl
  show pyLand (Int.ofNat k + 15) (pyNot 15) = _
  rw [h1, h2]
  show Int.ofNat ((k + 15) ^^^ ((k + 15) &&& 15)) = _
  rw [xor_and_fifteen, Int.ofNat_eq_natCast]
  congr 1

/-! ## Claim theorems -/

/-- C7: for every non-negative integer `n`, `alloc_size(n)` is the smallest
multiple of 16 that is `≥ n`; in particular `alloc_size(1) = 16`,
`alloc_size(16) = 16` and `alloc_size(17) = 32`. -/
theorem alloc_size_least_multiple (n : Int) (h : 0 ≤ n) :
    (16 ∣ Codegen.alloc_size n ∧ n ≤ Codegen.alloc_size n ∧
      (∀ m : Int, 16 ∣ m → n ≤ m → Codegen.alloc_size n ≤ m)) ∧
    Codegen.alloc_size 1 = 16 ∧ Codegen.alloc_size 16 = 16 ∧
    Codegen.alloc_size 17 = 32 := by
  refine ⟨?_, by decide, by decide, by decide⟩
  rw [alloc_size_eq_of_nonneg n h]
  refine ⟨⟨(((n.toNat + 15) / 16 : Nat) : Int), by push_cast; ring⟩, by omega, ?_⟩
  intro m hm hnm
  obtain ⟨j, rfl⟩ := hm
  omega

/-- Witness for C7 at `n = 5`. -/
theorem alloc_size_least_multiple_witness :
    (0 : Int) ≤ 5 ∧ 16 ∣ Codegen.alloc_size 5 ∧ (5 : Int) ≤ Codegen.alloc_size 5 :=
  ⟨by decide, (alloc_size_least_multiple 5 (by decide)).1.1,
    (alloc_size_least_multiple 5 (by decide)).1.2.1⟩

/-- C1 is violated by the code at `k = 17` (and the spec flags exactly this
as the defective variant): `allocate_stack` computes the rounded size but
discards it, appending a subtract-from-sp with immediate `16`, while
`deallocate_stack(17)` appends an add-to-sp with immediate
`alloc_size(17) = 32`, so the net stack-pointer effect is not zero. -/
theorem allocate_stack_fixed_sixteen_bug :
    (Codegen.allocate_stack ⟨[]⟩ 17).instructions
      = [⟨.SUB, [.str Reg.SP, .int 16]⟩] ∧
    (Codegen.deallocate_stack ⟨[]⟩ 17).instructions
      = [⟨.ADD, [.str Reg.SP, .str Reg.SP, .int 32]⟩] ∧
    Codegen.alloc_size 17 = 32 ∧ (16 : Int) ≠ 32 ∧
    (Instruction.emit ⟨.SUB, [.str Reg.SP, .int 16]⟩ = .line "\t sub sp, sp, #16") ∧
    (Instruction.emit ⟨.ADD, [.str Reg.SP, .str Reg.SP, .int 32]⟩
      = .line "\t add sp, sp, 32") := by
  refine ⟨rfl, ?_, by decide, by decide, rfl, rfl⟩
  show _ ++ [(⟨.ADD, [.str Reg.SP, .str Reg.SP, .int (Codegen.alloc_size 17)]⟩ : Instruction)] = _
  norm_num [show Codegen.alloc_size 17 = 32 from by decide]

/-- C10: `Reg.X(i)` and `Reg.W(i)` return `None` (not an exception — their
bodies are single conditional expressions with no `raise`) for every index
outside `[0, 30)`. -/
theorem reg_X_W_out_of_range (i : Int) (h : i < 0 ∨ 30 ≤ i) :
    Reg.X i = none ∧ Reg.W i = none := by
  unfold Reg.X Reg.W
  rw [if_neg (by omega), if_neg (by omega)]
  exact ⟨rfl, rfl⟩

/-- Witness for C10 at `i = 30`. -/
theorem reg_X_W_out_of_range_witness :
    ((30 : Int) < 0 ∨ 30 ≤ (30 : Int)) ∧ Reg.X 30 = none ∧ Reg.W 30 = none :=
  ⟨Or.inr (by decide), (reg_X_W_out_of_range 30 (Or.inr (by decide))).1,
    (reg_X_W_out_of_range 30 (Or.inr (by decide))).2⟩

/-- C8: a 2-operand move renders an integer source with a `#` prefix and a
register (string) source bare; when neither operand mnemonic contains `#`,
the register-source rendering contains no `#` at all, while the
immediate-source rendering always contains `#`. -/
theorem mov_render_hash_rule :
    (∀ (dst : Arg) (i : Int),
      Instruction.emit ⟨.MOV, [dst, .int i]⟩
        = .line ("\t mov " ++ dst.pyStr ++ ", #" ++ intStr i)) ∧
    (∀ (dst : Arg) (r : String),
      Instruction.emit ⟨.MOV, [dst, .str r]⟩
        = .line ("\t mov " ++ dst.pyStr ++ ", " ++ r)) ∧
    (∀ (d r : String), '#' ∉ d.data → '#' ∉ r.data → ∀ s : String,
      Instruction.emit ⟨.MOV, [.str d, .str r]⟩ = .line s → '#' ∉ s.data) ∧
    (∀ (dst : Arg) (i : Int), ∀ s : String,
      Instruction.emit ⟨.MOV, [dst, .int i]⟩ = .line s → '#' ∈ s.data) := by
  refine ⟨fun dst i => rfl, fun dst r => rfl, ?_, ?_⟩
  · intro d r hd hr s hs
    have hline : Instruction.emit ⟨.MOV, [.str d, .str r]⟩
        = .line ("\t mov " ++ d ++ ", " ++ r) := rfl
    rw [hline] at hs
    have hseq : s = "\t mov " ++ d ++ ", " ++ r := (EmitResult.line.injEq _ _ ▸ hs).symm
    subst hseq
    simp only [String.data_append, List.mem_append]
    rintro (((h1a | h1b) | h2) | h3)
    · exact absurd h1a (by decide)
    · exact hd h1b
    · exact absurd h2 (by decide)
    · exact hr h3
  · intro dst i s hs
    have hline : Instruction.emit ⟨.MOV, [dst, .int i]⟩
        = .line ("\t mov " ++ dst.pyStr ++ ", #" ++ intStr i) := rfl
    rw [hline] at hs
    have hseq : s = "\t mov " ++ dst.pyStr ++ ", #" ++ intStr i :=
      (EmitResult.line.injEq _ _ ▸ hs).symm
    subst hseq
    simp only [String.data_append, List.mem_append]
    exact Or.inl (Or.inr (by decide))

/-- C4: the 4-operand form of move-with-zero / move-with-keep with a
recognized shift-kind (`LSL` or `LSR`) fails the `assert` — the spec's
`IllegalShift` — whenever the opcode is not `MOVZ`, or the shift-kind is
`LSR`, or the shift amount is not one of `{0, 16, 32, 48}` (in particular,
amount `7`); `MOVZ` with `LSL #16` succeeds and renders the suffix
`, lsl #16`. -/
theorem movz_movk_shift_legality :
    (∀ op : Inst, op = .MOVZ ∨ op = .MOVK →
      ∀ (dst imm : Arg) (st : String) (sh : Arg), st = "LSL" ∨ st = "LSR" →
      ¬(op = .MOVZ ∧ st = "LSL" ∧
          (sh = .int 0 ∨ sh = .int 16 ∨ sh = .int 32 ∨ sh = .int 48)) →
      Instruction.emit ⟨op, [dst, imm, .str st, sh]⟩ = .exc .assertionError) ∧
    (∀ dst imm : Arg,
      Instruction.emit ⟨.MOVZ, [dst, imm, .str "LSL", .int 16]⟩
        = .line ("\t movz " ++ dst.pyStr ++ ", #" ++ imm.pyStr ++ ", lsl #16")) := by
  constructor
  · intro op hop dst imm st sh hst hbad
    rcases hop with rfl | rfl
    · show emitMovzk .MOVZ [dst, imm, .str st, sh] = _
      rw [emitMovzk, if_pos hst, if_neg hbad]
    · show emitMovzk .MOVK [dst, imm, .str st, sh] = _
      rw [emitMovzk, if_pos hst, if_neg (by rintro ⟨h, -⟩; cases h)]
  · intro dst imm
    show emitMovzk .MOVZ [dst, imm, .str "LSL", .int 16] = _
    rw [emitMovzk, if_pos (Or.inl rfl),
      if_pos ⟨rfl, rfl, Or.inr (Or.inl rfl)⟩]
    have h1 : "\t " ++ pyLower (Inst.pyName .MOVZ) ++ " " = "\t movz " := rfl
    rw [h1, String.append_assoc _ ", " (pyLower "LSL"),
      String.append_assoc _ (", " ++ pyLower "LSL") " #",
      String.append_assoc _ (", " ++ pyLower "LSL" ++ " #") (Arg.pyStr (.int 16))]
    rfl

/-- Witness for C4: `MOVZ` with shift amount `7` (and `MOVK` with a legal
amount) fail with the assertion, and the `lsl #16` form renders. -/
theorem movz_movk_shift_legality_witness :
    Instruction.emit ⟨.MOVZ, [.str "x1", .int 5, .str "LSL", .int 7]⟩
      = .exc .assertionError ∧
    Instruction.emit ⟨.MOVK, [.str "x1", .int 5, .str "LSL", .int 16]⟩
      = .exc .assertionError ∧
    Instruction.emit ⟨.MOVZ, [.str "x1", .int 5, .str "LSL", .int 16]⟩
      = .line "\t movz x1, #5, lsl #16" :=
  ⟨movz_movk_shift_legality.1 .MOVZ (Or.inl rfl) (.str "x1") (.int 5) "LSL" (.int 7)
      (Or.inl rfl) (by rintro ⟨-, -, h | h | h | h⟩ <;> simp at h),
    movz_movk_shift_legality.1 .MOVK (Or.inr rfl) (.str "x1") (.int 5) "LSL" (.int 16)
      (Or.inl rfl) (by rintro ⟨h, -⟩; cases h),
    (movz_movk_shift_legality.2 (.str "x1") (.int 5)).trans (by rfl)⟩

/-- C5: every store-family instruction with a source operand and an
addressing operand renders `src, [base]` for a one-element addressing list
(no offset clause) and `src, [base, #offset]` for a two-element one; any
other addressing shape — a list of another length, or a non-list second
operand — raises instead of producing text.  Concretely, store-byte of `w1`
at `[x1]` renders (with this model's leading tab-space) `\t strb w1, [x1]`. -/
theorem store_addressing_shapes (op : Inst)
    (hop : op = .STR ∨ op = .STRB ∨ op = .STRH) :
    (∀ (src : Arg) (base : PrimArg),
      Instruction.emit ⟨op, [src, .list [base]]⟩
        = .line ("\t " ++ pyLower op.pyName ++ " " ++ src.pyStr ++ ", [" ++
            base.pyStr ++ "]")) ∧
    (∀ (src : Arg) (base offset : PrimArg),
      Instruction.emit ⟨op, [src, .list [base, offset]]⟩
        = .line ("\t " ++ pyLower op.pyName ++ " " ++ src.pyStr ++ ", [" ++
            base.pyStr ++ ", #" ++ offset.pyStr ++ "]")) ∧
    (∀ (src : Arg) (l : List PrimArg), l.length ≠ 1 → l.length ≠ 2 →
      Instruction.emit ⟨op, [src, .list l]⟩ = .exc .valueError) ∧
    (∀ (src : Arg) (r : String),
      Instruction.emit ⟨op, [src, .str r]⟩ = .exc .valueError) ∧
    (∀ (src : Arg) (i : Int),
      Instruction.emit ⟨op, [src, .int i]⟩ = .exc .valueError) ∧
    Instruction.emit ⟨.STRB, [.str Reg.W1, .list [.str Reg.X1]]⟩
      = .line "\t strb w1, [x1]" := by
  have main : ∀ opq : Inst, (opq = .STR ∨ opq = .STRB ∨ opq = .STRH) →
      (∀ (src : Arg) (l : List PrimArg), l.length ≠ 1 → l.length ≠ 2 →
        emitStore opq [src, .list l] = .exc .valueError) := by
    intro opq _ src l h1 h2
    match l with
    | [] => rfl
    | [a] => exact absurd rfl h1
    | [a, b] => exact absurd rfl h2
    | a :: b :: c :: t => rfl
  rcases hop with rfl | rfl | rfl <;>
    exact ⟨fun src base => rfl, fun src base offset => rfl,
      main _ (by simp), fun src r => rfl, fun src i => rfl, rfl⟩

/-- Witness for C5 at `STRB`, covering the bracketed one- and two-element
addressing forms and a failing empty addressing list. -/
theorem store_addressing_shapes_witness :
    Instruction.emit ⟨.STRB, [.str "w1", .list [.str "x1"]]⟩
      = .line "\t strb w1, [x1]" ∧
    Instruction.emit ⟨.STRB, [.str "w1", .list [.str "x1", .int 4]]⟩
      = .line "\t strb w1, [x1, #4]" ∧
    Instruction.emit ⟨.STRB, [.str "w1", .list []]⟩ = .exc .valueError ∧
    Instruction.emit ⟨.STRB, [.str "w1", .str "x1"]⟩ = .exc .valueError :=
  ⟨((store_addressing_shapes .STRB (Or.inr (Or.inl rfl))).1 (.str "w1")
      (.str "x1")).trans (by rfl),
    ((store_addressing_shapes .STRB (Or.inr (Or.inl rfl))).2.1 (.str "w1")
      (.str "x1") (.int 4)).trans (by rfl),
    (store_addressing_shapes .STRB (Or.inr (Or.inl rfl))).2.2.1 (.str "w1") []
      (by decide) (by decide),
    (store_addressing_shapes .STRB (Or.inr (Or.inl rfl))).2.2.2.1 (.str "w1") "x1"⟩

/-! ## Lemmas about `Codegen.generate` -/

theorem collectLines_ok_of_lines (l : List Instruction)
    (h : ∀ i ∈ l, ∃ s, i.emit = .line s) :
    Codegen.collectLines l = .ok (l.map (fun i => some (emittedLine i))) := by
  induction l with
  | nil => rfl
  | cons a t ih =>
    obtain ⟨s, hs⟩ := h a (List.mem_cons_self a t)
    have ht := ih (fun i hi => h i (List.mem_cons_of_mem a hi))
    have hel : emittedLine a = s := by unfold emittedLine; rw [hs]
    simp [Codegen.collectLines, hs, ht, hel, Except.map]

theorem generate_of_collect_ok (cg : Codegen) (ls : List (Option String))
    (h : Codegen.collectLines cg.instructions = .ok ls) :
    cg.generate =
      if (Codegen.headerLines.map some ++ ls).all Option.isSome then
        .ok (Codegen.pyJoin "\n" ((Codegen.headerLines.map some ++ ls).filterMap id))
      else .error .typeError := by
  unfold Codegen.generate
  rw [h]

theorem mem_collectLines_none (l : List Instruction) (i : Instruction)
    (hi : i ∈ l) (hnone : i.emit = .noneVal) :
    ∀ ls, Codegen.collectLines l = .ok ls → none ∈ ls := by
  induction l with
  | nil => cases hi
  | cons a t ih =>
    intro ls hls
    rcases List.mem_cons.mp hi with rfl | hmem
    · rw [Codegen.collectLines, hnone] at hls
      cases hct : Codegen.collectLines t with
      | error e => rw [hct] at hls; simp [Except.map] at hls
      | ok ls' =>
        rw [hct] at hls
        simp only [Except.map, Except.ok.injEq] at hls
        rw [← hls]
        exact List.mem_cons_self none ls'
    · cases he : a.emit with
      | line s =>
        rw [Codegen.collectLines, he] at hls
        cases hct : Codegen.collectLines t with
        | error e => rw [hct] at hls; simp [Except.map] at hls
        | ok ls' =>
          rw [hct] at hls
          simp only [Except.map, Except.ok.injEq] at hls
          rw [← hls]
          exact List.mem_cons_of_mem _ (ih hmem ls' hct)
      | noneVal =>
        rw [Codegen.collectLines, he] at hls
        cases hct : Codegen.collectLines t with
        | error e => rw [hct] at hls; simp [Except.map] at hls
        | ok ls' =>
          rw [hct] at hls
          simp only [Except.map, Except.ok.injEq] at hls
          rw [← hls]
          exact List.mem_cons_self none ls'
      | exc e =>
        rw [Codegen.collectLines, he] at hls
        cases hls

/-- C9: every catalog member without a branch in `emit`'s if-chain (load,
address-of-label, address-of-page, move-with-not, multiply, unsigned-divide,
negate, increment, and, or, xor, move-not, the logical shifts, compare,
test, conditional-compare) makes `emit` return the implicit `None` for any
operand list, and a program containing such an instruction can never render
to a listing: `generate` always fails (the `None` poisons `"\n".join` with a
`TypeError` unless an earlier instruction already raised). -/
theorem armless_ops_emit_none (op : Inst) (hop : op ∈ armlessOps) (args : List Arg) :
    Instruction.emit ⟨op, args⟩ = .noneVal ∧
    ∀ (cg : Codegen) (s : String), (⟨op, args⟩ : Instruction) ∈ cg.instructions →
      cg.generate ≠ .ok s := by
  have hnone : Instruction.emit ⟨op, args⟩ = .noneVal := by
    fin_cases hop <;> rfl
  refine ⟨hnone, ?_⟩
  intro cg s hi hgen
  cases hct : Codegen.collectLines cg.instructions with
  | error e =>
    unfold Codegen.generate at hgen
    rw [hct] at hgen
    cases hgen
  | ok ls =>
    have hn : none ∈ ls := mem_collectLines_none _ _ hi hnone ls hct
    have hall : (Codegen.headerLines.map some ++ ls).all Option.isSome = false := by
      rw [Bool.eq_false_iff]
      intro hall
      have := List.all_eq_true.mp hall none (List.mem_append_right _ hn)
      simp at this
    rw [generate_of_collect_ok cg ls hct, hall] at hgen
    simp at hgen

/-- Witness for C9 at a `MUL` instruction with an empty operand list. -/
theorem armless_ops_emit_none_witness :
    Instruction.emit ⟨.MUL, []⟩ = .noneVal ∧
    Codegen.generate ⟨[⟨.MUL, []⟩]⟩
      ≠ .ok ".section __TEXT,__text\n.global _main\n\n_main:" :=
  ⟨(armless_ops_emit_none .MUL (by simp [armlessOps]) []).1,
    (armless_ops_emit_none .MUL (by simp [armlessOps]) []).2 ⟨[⟨.MUL, []⟩]⟩ _
      (List.mem_singleton.mpr rfl)⟩

/-- C6 (amended): for every program all of whose instructions render, the
listing is exactly the fixed header — section directive, global directive,
blank line, entry label — followed by one rendered line per appended
instruction in append order, all joined by newlines.  (As stated over every
program the claim fails: an instruction with no emission branch makes
`generate` raise instead — see the counterexample.)  `generate` reads
`self.instructions` without mutating anything, which is why it is embedded
as a pure function of the instruction list: repeated rendering is
literally the same value. -/
theorem generate_header_then_lines (cg : Codegen)
    (h : ∀ i ∈ cg.instructions, ∃ s, i.emit = .line s) :
    cg.generate = .ok (Codegen.pyJoin "\n"
      (Codegen.headerLines ++ cg.instructions.map emittedLine)) := by
  rw [generate_of_collect_ok cg _ (collectLines_ok_of_lines _ h)]
  have hmap : Codegen.headerLines.map some ++
      cg.instructions.map (fun i => some (emittedLine i))
      = (Codegen.headerLines ++ cg.instructions.map emittedLine).map some := by
    rw [List.map_append, List.map_map]
    rfl
  rw [hmap]
  rw [if_pos (by simp [List.all_map])]
  congr 1
  congr 1
  simp

/-- Witness for C6: a two-instruction program renders the four header lines
and one line per instruction, in order. -/
theorem generate_header_then_lines_witness :
    Codegen.generate ⟨[⟨.RET, []⟩, ⟨.NOP, []⟩]⟩
      = .ok ".section __TEXT,__text\n.global _main\n\n_main:\n\t ret\n\t nop" :=
  (generate_header_then_lines ⟨[⟨.RET, []⟩, ⟨.NOP, []⟩]⟩ (by
    intro i hi
    rcases List.mem_cons.mp hi with rfl | hi
    · exact ⟨"\t ret", rfl⟩
    · rcases List.mem_cons.mp hi with rfl | hi
      · exact ⟨"\t nop", rfl⟩
      · cases hi)).trans (by rfl)

/-- Counterexample to C6 as universally stated: a program containing an
instruction with no emission branch does not render the header plus one
line per instruction — `generate` raises `TypeError` when `join` meets the
`None` produced by `Instruction(Inst.MUL, []).emit()`. -/
theorem generate_header_then_lines_counterexample :
    Codegen.generate ⟨[⟨.MUL, []⟩]⟩ = .error .typeError := by rfl

/-! ## Lemmas about register resolution -/

theorem regSpecial_X_of_ne (l : List Char) (hne : l ≠ ['Z', 'R']) :
    regSpecial ('X' :: l) = none := by
  unfold regSpecial
  rw [if_neg (by simp), if_neg (by simp), if_neg (by simp),
    if_neg (by simp [hne]), if_neg (by simp)]

theorem regSpecial_W_of_ne (l : List Char) (hne : l ≠ ['Z', 'R']) :
    regSpecial ('W' :: l) = none := by
  unfold regSpecial
  rw [if_neg (by simp), if_neg (by simp), if_neg (by simp),
    if_neg (by simp), if_neg (by simp [hne])]

theorem digits_ne_ZR (l : List Char) (h : ∀ c ∈ l, c.isDigit = true) :
    l ≠ ['Z', 'R'] := by
  intro he
  have := h 'Z' (by rw [he]; simp)
  exact absurd this (by decide)

theorem regGetattrL_X_of_parse (l : List Char) (hne : l ≠ ['Z', 'R']) :
    regGetattrL ('X' :: l) = xwLookup 'x' l := by
  unfold regGetattrL
  rw [regSpecial_X_of_ne l hne]
  simp

theorem regGetattrL_W_of_parse (l : List Char) (hne : l ≠ ['Z', 'R']) :
    regGetattrL ('W' :: l) = xwLookup 'w' l := by
  unfold regGetattrL
  rw [regSpecial_W_of_ne l hne]
  simp

theorem intChars_ofNat (n : Nat) : intChars (Int.ofNat n) = natChars n := by
  rw [intChars, if_neg (by rw [Int.ofNat_eq_natCast]; omega)]
  rfl

theorem xwLookup_eq (lc : Char) (l : List Char) (k : Int)
    (hp : pythonIntL l = some k) :
    xwLookup lc l = if 0 ≤ k ∧ k < 30 then some (lc :: intChars k) else none := by
  unfold xwLookup
  rw [hp]

theorem xwLookup_natChars_in (lc : Char) (n : Nat) (h : n < 30) :
    xwLookup lc (natChars n) = some (lc :: natChars n) := by
  rw [xwLookup_eq lc (natChars n) (Int.ofNat n) (pythonIntL_natChars n),
    if_pos ⟨by rw [Int.ofNat_eq_natCast]; omega, by rw [Int.ofNat_eq_natCast]; omega⟩,
    intChars_ofNat]

theorem xwLookup_out (lc : Char) (l : List Char) (k : Int)
    (hp : pythonIntL l = some k) (hk : k < 0 ∨ 30 ≤ k) :
    xwLookup lc l = none := by
  rw [xwLookup_eq lc l k hp, if_neg (by omega)]

/-- C3 (amended): canonical names behave as claimed — `X<n>`/`W<n>` resolve
to `x<n>`/`w<n>` exactly for `0 ≤ n < 30` and fail for every integer index
outside that range — but the index is parsed with Python `int()` leniency,
so resolution of a name succeeds only when the name is special or is
`X`/`W` followed by text that `int()` accepts with value in `[0, 30)`
(which admits non-canonical spellings such as `X007`; see the
counterexample). -/
theorem register_resolution_amended :
    (∀ n : Nat, n < 30 →
      regGetattr (String.mk ('X' :: natChars n)) = some (String.mk ('x' :: natChars n)) ∧
      regGetattr (String.mk ('W' :: natChars n)) = some (String.mk ('w' :: natChars n))) ∧
    (∀ n : Int, n < 0 ∨ 30 ≤ n →
      regGetattr (String.mk ('X' :: intChars n)) = none ∧
      regGetattr (String.mk ('W' :: intChars n)) = none) ∧
    (∀ name : String, regGetattr name ≠ none →
      regSpecial name.data ≠ none ∨
      ∃ k : Int, 0 ≤ k ∧ k < 30 ∧
        (name.data.head? = some 'X' ∨ name.data.head? = some 'W') ∧
        pythonIntL name.data.tail = some k) := by
  refine ⟨?_, ?_, ?_⟩
  · intro n h
    constructor
    · show (regGetattrL ('X' :: natChars n)).map (fun l => String.mk l) = _
      rw [regGetattrL_X_of_parse _ (digits_ne_ZR _ (natChars_all_digits n)),
        xwLookup_natChars_in 'x' n h]
      rfl
    · show (regGetattrL ('W' :: natChars n)).map (fun l => String.mk l) = _
      rw [regGetattrL_W_of_parse _ (digits_ne_ZR _ (natChars_all_digits n)),
        xwLookup_natChars_in 'w' n h]
      rfl
  · intro n hn
    by_cases hneg : n < 0
    · have hic : intChars n = Char.ofNat 45 :: natChars (-n).toNat := by
        rw [intChars, if_pos hneg]
      have hzr : (Char.ofNat 45 :: natChars (-n).toNat) ≠ ['Z', 'R'] := by
        intro he
        injection he with h1 _
        exact absurd h1 (by decide)
      have hval : pythonIntL (Char.ofNat 45 :: natChars (-n).toNat)
          = some (-(Int.ofNat (-n).toNat)) := pythonIntL_neg_natChars _
      have hout : (-(Int.ofNat (-n).toNat)) < 0 ∨ 30 ≤ (-(Int.ofNat (-n).toNat)) := by
        left; rw [Int.ofNat_eq_natCast]; omega
      constructor
      · show (regGetattrL ('X' :: intChars n)).map (fun l => String.mk l) = _
        rw [hic, regGetattrL_X_of_parse _ hzr, xwLookup_out 'x' _ _ hval hout]
        rfl
      · show (regGetattrL ('W' :: intChars n)).map (fun l => String.mk l) = _
        rw [hic, regGetattrL_W_of_parse _ hzr, xwLookup_out 'w' _ _ hval hout]
        rfl
    · have hic : intChars n = natChars n.toNat := by
        rw [intChars, if_neg hneg]
      have hval : pythonIntL (natChars n.toNat) = some (Int.ofNat n.toNat) :=
        pythonIntL_natChars _
      have hout : (Int.ofNat n.toNat) < 0 ∨ 30 ≤ (Int.ofNat n.toNat) := by
        right; rw [Int.ofNat_eq_natCast]; omega
      constructor
      · show (regGetattrL ('X' :: intChars n)).map (fun l => String.mk l) = _
        rw [hic, regGetattrL_X_of_parse _ (digits_ne_ZR _ (natChars_all_digits _)),
          xwLookup_out 'x' _ _ hval hout]
        rfl
      · show (regGetattrL ('W' :: intChars n)).map (fun l => String.mk l) = _
        rw [hic, regGetattrL_W_of_parse _ (digits_ne_ZR _ (natChars_all_digits _)),
          xwLookup_out 'w' _ _ hval hout]
        rfl
  · intro name h
    have h' : regGetattrL name.data ≠ none := by
      intro he
      apply h
      show (regGetattrL name.data).map (fun l => String.mk l) = none
      rw [he]
      rfl
    by_cases hs : regSpecial name.data = none
    · right
      unfold regGetattrL at h'
      rw [hs] at h'
      simp only [Option.isSome_none, Bool.false_eq_true, if_false] at h'
      rcases hd : name.data with _ | ⟨c, rest⟩
      · rw [hd] at h'; exact absurd rfl h'
      · rw [hd] at h'
        replace h' : (if c = 'X' then xwLookup 'x' rest
            else if c = 'W' then xwLookup 'w' rest else none) ≠ none := h'
        by_cases hX : c = 'X'
        · subst hX
          rw [if_pos rfl] at h'
          rcases hp : pythonIntL rest with _ | k
          · rw [xwLookup, hp] at h'; exact absurd rfl h'
          · by_cases hr : 0 ≤ k ∧ k < 30
            · exact ⟨k, hr.1, hr.2, Or.inl rfl, hp⟩
            · rw [xwLookup_eq 'x' rest k hp, if_neg hr] at h'
              exact absurd rfl h'
        · rw [if_neg hX] at h'
          by_cases hW : c = 'W'
          · subst hW
            rw [if_pos rfl] at h'
            rcases hp : pythonIntL rest with _ | k
            · rw [xwLookup, hp] at h'; exact absurd rfl h'
            · by_cases hr : 0 ≤ k ∧ k < 30
              · exact ⟨k, hr.1, hr.2, Or.inr rfl, hp⟩
              · rw [xwLookup_eq 'w' rest k hp, if_neg hr] at h'
                exact absurd rfl h'
          · rw [if_neg hW] at h'
            exact absurd rfl h'
    · exact Or.inl hs

/-- Counterexample to C3 as stated: the name `X007` is neither special nor
the canonical spelling `X7` of any in-range index, yet `__getattr__`
resolves it to `x7` instead of failing, because `int("007") = 7`. -/
theorem register_resolution_counterexample :
    regGetattr "X007" = some "x7" ∧ regSpecial "X007".data = none ∧
    String.mk ('X' :: natChars 7) = "X7" ∧ ("X007" : String) ≠ "X7" :=
  ⟨rfl, rfl, rfl, by decide⟩

/-- Witness for C3 (amended) at `n = 5` and `n = 30`. -/
theorem register_resolution_amended_witness :
    regGetattr (String.mk ('X' :: natChars 5)) = some (String.mk ('x' :: natChars 5)) ∧
    regGetattr (String.mk ('W' :: intChars 30)) = none :=
  ⟨(register_resolution_amended.1 5 (by decide)).1,
    (register_resolution_amended.2.1 30 (Or.inr (by decide))).2⟩

/-! ## Lemmas about `print_sum` -/

theorem foldl_digitPairs (l : List (Nat × Char)) :
    ∀ cg : Codegen,
      (l.foldl (fun acc p => (acc.emit (TemplateInstruction.movzInstr p.2)).emit
          (TemplateInstruction.strbInstr p.1)) cg).instructions
        = cg.instructions ++
            l.flatMap (fun p => TemplateInstruction.digitPair p.1 p.2) := by
  induction l with
  | nil => intro cg; simp
  | cons p t ih =>
    intro cg
    rw [List.foldl_cons, ih]
    simp [Codegen.emit, TemplateInstruction.digitPair]

theorem filter_digitPairs (l : List (Nat × Char)) :
    (l.flatMap (fun p => TemplateInstruction.digitPair p.1 p.2)).filter isDigitPairOp
      = l.flatMap (fun p => TemplateInstruction.digitPair p.1 p.2) := by
  rw [List.filter_eq_self]
  intro a ha
  rw [List.mem_flatMap] at ha
  obtain ⟨p, -, hp⟩ := ha
  rcases List.mem_cons.mp hp with rfl | hp
  · rfl
  · rcases List.mem_cons.mp hp with rfl | hp
    · rfl
    · cases hp

/-- C2: `print_sum(a, b)` enqueues, among all its instructions, exactly one
move-with-zero (`MOVZ` of `ord(ch)` into `x1` with `LSL #0`) followed by
one store-byte (`STRB` of `w1` at `[sp, #idx]`) per character `ch` of
`str(a + b)` at index `idx`, in string order — so the bytes stored are
exactly the host-computed decimal rendering of `a + b`.  Concretely,
`print_sum(40, 2)` enqueues exactly the pairs for `'4'` at offset 0 and
`'2'` at offset 1. -/
theorem print_sum_stores_digits (a b : Int) :
    (TemplateInstruction.print_sum a b).instructions.filter isDigitPairOp
      = (intChars (a + b)).enum.flatMap
          (fun p => TemplateInstruction.digitPair p.1 p.2) ∧
    (TemplateInstruction.print_sum 40 2).instructions.filter isDigitPairOp
      = TemplateInstruction.digitPair 0 '4' ++ TemplateInstruction.digitPair 1 '2' := by
  constructor
  · unfold TemplateInstruction.print_sum
    simp only [Codegen.allocate_stack, Codegen.syscall_write,
      Codegen.deallocate_stack, Codegen.syscall_exit]
    rw [foldl_digitPairs]
    simp only [List.filter_append, filter_digitPairs]
    simp [isDigitPairOp]
  · rfl

/-- Witness for C8: concrete immediate-source and register-source moves. -/
theorem mov_render_hash_rule_witness :
    Instruction.emit ⟨.MOV, [.str "x0", .int 5]⟩ = .line "\t mov x0, #5" ∧
    Instruction.emit ⟨.MOV, [.str "x1", .str "sp"]⟩ = .line "\t mov x1, sp" ∧
    '#' ∉ "\t mov x1, sp".data ∧ '#' ∈ "\t mov x0, #5".data :=
  ⟨(mov_render_hash_rule.1 (.str "x0") 5).trans (by rfl),
    (mov_render_hash_rule.2.1 (.str "x1") "sp").trans (by rfl),
    mov_render_hash_rule.2.2.1 "x1" "sp" (by decide) (by decide) _
      ((mov_render_hash_rule.2.1 (.str "x1") "sp").trans (by rfl)),
    mov_render_hash_rule.2.2.2 (.str "x0") 5 _
      ((mov_render_hash_rule.1 (.str "x0") 5).trans (by rfl))⟩
